import Mathlib

/-!
Shallow embedding of the jobportal_connector service — the FastAPI endpoint
(src/api/index.py), the scraper workflow (src/api/scraper.py) and the webhook
handlers (src/api/webhooks/handlers.py) — together with theorems settling the
specification's claims about it.

Modelling conventions: portal strings are Lean `String`s; raw HTTP request
bodies are byte lists (`List Nat`); the character-level pieces (skip-list
serialization, URL parsing) are modelled over `List Char`.  The relational
datastore and the HMAC primitives are external collaborators and appear as
parameters (an abstract `Datastore` and abstract digest functions).
-/

/-! ## Python exception model

Starlette's `HTTPException` subclasses `Exception`, so a bare
`except Exception` clause catches it too; `str` of an `HTTPException` is
"<status_code>: <detail>".  Both facts matter for the endpoints below.
-/

structure HTTPException where
  status_code : Nat
  detail : String
deriving DecidableEq

inductive PyExc where
  | http (e : HTTPException)
  | other (msg : String)
deriving DecidableEq

def PyExc.str : PyExc → String
  | .http e => toString e.status_code ++ ": " ++ e.detail
  | .other m => m

/-! ## The /api/scrape endpoint (src/api/index.py:58-93) -/

structure ScrapeResponse where
  inserted : Nat
  skipped : Nat
  duration_ms : Nat
  message : String
deriving DecidableEq

inductive EndpointReply where
  | success (r : ScrapeResponse)
  | error (status : Nat) (detail : String)
deriving DecidableEq

/-- Embedding of `scrape_job_portal` (src/api/index.py:58-93).
`scraperConfigured` is `scraper is not None`; `scrapeOutcome` is the result of
`await scraper.scrape_candidates(...)` (counts on success, a raised exception
otherwise); `durationMs` stands for the measured wall-clock time.  The whole
`try` body — including the `raise HTTPException(503)` for a missing scraper —
is guarded by `except Exception`, which re-raises as status 500 wrapping
`str(e)`. -/
def scrape_job_portal (scraperConfigured : Bool) (durationMs : Nat)
    (scrapeOutcome : Except PyExc (Nat × Nat)) : EndpointReply :=
  let tryBlock : Except PyExc ScrapeResponse :=
    if scraperConfigured = false then
      Except.error (PyExc.http ⟨503,
        "Scraper not available. Please configure SUPABASE_URL and SUPABASE_SERVICE_ROLE_KEY environment variables."⟩)
    else
      match scrapeOutcome with
      | Except.error e => Except.error e
      | Except.ok (ins, skp) =>
        Except.ok ⟨ins, skp, durationMs,
          "Successfully processed " ++ toString (ins + skp) ++ " candidates"⟩
  match tryBlock with
  | Except.ok r => EndpointReply.success r
  | Except.error e => EndpointReply.error 500 ("Scraping failed: " ++ e.str)

/-! ## Ingestion writer (src/api/scraper.py:187-215) -/

structure RawCandidate where
  first_name : Option String := none
  last_name : Option String := none
  email : Option String := none
  phone : Option String := none
deriving DecidableEq

structure CandidateRecord where
  position_id : String
  first_name : Option String
  last_name : Option String
  email : Option String
  phone : Option String
  source_url : String
deriving DecidableEq

/-- The `candidate_record` dict built at src/api/scraper.py:197-204. -/
def candidateRecordOf (position_id : String) (c : RawCandidate)
    (source_url : String) : CandidateRecord :=
  ⟨position_id, c.first_name, c.last_name, c.email, c.phone, source_url⟩

/-- Abstract datastore collaborator: an insert attempt transforms the store
state and reports success; a `false` flag is any raised persistence failure. -/
structure Datastore (σ : Type) where
  insert : σ → CandidateRecord → σ × Bool

/-- Embedding of `JobScraper._store_candidates` (src/api/scraper.py:187-215):
walk the raw candidates in input order, attempt one insert per record, count a
success as `inserted` and any failure as `skipped`. Returns
(final store state, inserted, skipped). -/
def store_candidates {σ : Type} (ds : Datastore σ) (position_id : String)
    (candidates_data : List RawCandidate) (source_url : String) (s : σ) :
    σ × Nat × Nat :=
  match candidates_data with
  | [] => (s, 0, 0)
  | c :: rest =>
    let step := ds.insert s (candidateRecordOf position_id c source_url)
    let tail := store_candidates ds position_id rest source_url step.1
    if step.2 then (tail.1, tail.2.1 + 1, tail.2.2)
    else (tail.1, tail.2.1, tail.2.2 + 1)

/-- The per-record outcome trace of the same walk: one boolean per input
record, in input order, `true` exactly when that record's insert succeeded. -/
def storeOutcomes {σ : Type} (ds : Datastore σ) (position_id : String)
    (candidates_data : List RawCandidate) (source_url : String) (s : σ) :
    List Bool :=
  match candidates_data with
  | [] => []
  | c :: rest =>
    let step := ds.insert s (candidateRecordOf position_id c source_url)
    step.2 :: storeOutcomes ds position_id rest source_url step.1

/-- Idealised datastore enforcing exactly the `(position_id, phone_hash)`
uniqueness constraint: the state is the set of keys already present, the
server-side digest of the phone is `h`, and an insert fails precisely when the
row's key is already present (rows without a phone carry a NULL hash, which
never conflicts). -/
def uniqueInsert (h : String → String) (s : List (String × String))
    (r : CandidateRecord) : List (String × String) × Bool :=
  match r.phone with
  | none => (s, true)
  | some p =>
    if (r.position_id, h p) ∈ s then (s, false)
    else ((r.position_id, h p) :: s, true)

def uniqueDS (h : String → String) : Datastore (List (String × String)) :=
  ⟨uniqueInsert h⟩

/-- The uniqueness key a raw candidate would occupy, when it has a phone. -/
def keyOf (h : String → String) (position_id : String) (c : RawCandidate) :
    Option (String × String) :=
  c.phone.map fun p => (position_id, h p)

/-! ## Dedup hash check (src/api/scraper.py:112-122) -/

structure CandidateRow where
  position_id : String
  phone_sha256 : Option String
deriving DecidableEq

/-- Embedding of `JobScraper._get_existing_phone_hashes`
(src/api/scraper.py:112-122): select `phone_sha256` from the `candidates`
table rows whose `position_id` matches, keeping only truthy (non-null,
non-empty) values.  A pure read of the table. -/
def get_existing_phone_hashes (table : List CandidateRow)
    (position_id : String) : List String :=
  (table.filter fun r => r.position_id == position_id).filterMap fun r =>
    r.phone_sha256.bind fun s => if s = "" then none else some s

/-! ## Skip-list serialization (src/api/scraper.py:36-46)

`skip_hashes_csv = ",".join(existing_hashes)`, modelled at the character
level over `List Char`. -/

/-- Python's `",".join`: concatenate the pieces with a single comma between
consecutive pieces. -/
def joinComma : List (List Char) → List Char
  | [] => []
  | [x] => x
  | x :: y :: xs => x ++ ',' :: joinComma (y :: xs)

/-- The serialized skip-list placed in the task's `secrets` namespace. -/
def skipHashesCsv (existing_hashes : List (List Char)) : List Char :=
  joinComma existing_hashes

def splitCommaAux : List Char → List Char → List (List Char)
  | [], acc => [acc.reverse]
  | c :: rest, acc =>
    if c = ',' then acc.reverse :: splitCommaAux rest []
    else splitCommaAux rest (c :: acc)

/-- Splitting on commas (Python `s.split(",")` semantics on a non-empty
string). -/
def splitComma (s : List Char) : List (List Char) :=
  splitCommaAux s []

/-- The comma-separated components of a serialized skip-list: none for the
empty serialization, the comma-split pieces otherwise. -/
def csvComponents (s : List Char) : List (List Char) :=
  if s = [] then [] else splitComma s

/-! ## Domain extraction (src/api/scraper.py:145-150)

`JobScraper._extract_domain` returns `urlparse(url).netloc`.  `urllib.parse`
is an external collaborator (the standard library); its netloc extraction is
modelled after the documented `urlsplit` behaviour: strip a leading
`scheme:` when the part before the first colon is a well-formed scheme, then
read an authority only after a literal `//`, up to the first of `/?#`; a
netloc with an unbalanced square bracket raises `ValueError`. -/

def isSchemeChar (c : Char) : Bool :=
  c.isAlpha || c.isDigit || c = '+' || c = '-' || c = '.'

/-- Strip `scheme:` from the front of the URL when the prefix before the
first colon is non-empty, starts with a letter and consists of scheme
characters; otherwise return the URL unchanged. -/
def stripScheme (url : List Char) : List Char :=
  match url.findIdx? (fun c => c = ':') with
  | none => url
  | some i =>
    if decide (0 < i)
        && (url.take i).all isSchemeChar
        && (match url.head? with | some c => c.isAlpha | none => false)
    then url.drop (i + 1)
    else url

def startsWithSlashSlash : List Char → Bool
  | '/' :: '/' :: _ => true
  | _ => false

/-- Embedding of `JobScraper._extract_domain` (src/api/scraper.py:145-150):
the `netloc` component of the parsed URL, or a `ValueError` for an invalid
IPv6 authority. -/
def extract_domain (url : List Char) : Except String (List Char) :=
  let rest := stripScheme url
  if startsWithSlashSlash rest then
    let netloc := (rest.drop 2).takeWhile fun c =>
      !(c = '/' || c = '?' || c = '#')
    if (netloc.contains '[' && !netloc.contains ']')
        || (netloc.contains ']' && !netloc.contains '[') then
      Except.error "Invalid IPv6 URL"
    else Except.ok netloc
  else Except.ok []

/-! ## Automation client (src/api/scraper.py:152-185)

`JobScraper._run_browser_use_task` submits the task, then polls every five
seconds until a terminal status.  Each outbound call either fails in
transport or yields an HTTP response carrying a status code and a parsed
JSON body; `raise_for_status` (httpx) raises for every non-2xx code. -/

inductive CallResult (α : Type) where
  | response (status : Nat) (body : α)
  | transportError (msg : String)
deriving DecidableEq

/-- Parsed body of the submission response; only the task id is read. -/
structure SubmitData where
  id : String
deriving DecidableEq

/-- Parsed body of a poll response: `status`, optional `output` array and
optional `error` message. -/
structure StatusData where
  status : String
  output : Option (List RawCandidate) := none
  error : Option String := none
deriving DecidableEq

def is2xx (n : Nat) : Bool := decide (200 ≤ n) && decide (n < 300)

inductive TaskOutcome where
  | returned (out : List RawCandidate)
  | raised (msg : String)
  | stillPolling
deriving DecidableEq

/-- One step of `raise_for_status` on a call result: the message raised for a
non-2xx response is the HTTP library's, summarised by its status code here. -/
def httpErrorMsg (status : Nat) : String :=
  "HTTP status error " ++ toString status

/-- The polling loop of `_run_browser_use_task` (src/api/scraper.py:168-185),
consuming the successive poll results.  `stillPolling` marks a finite trace
that never reached a terminal status — the real loop would simply keep
waiting there. -/
def pollLoop : List (CallResult StatusData) → TaskOutcome
  | [] => TaskOutcome.stillPolling
  | CallResult.transportError m :: _ => TaskOutcome.raised m
  | CallResult.response st sd :: rest =>
    if !is2xx st then TaskOutcome.raised (httpErrorMsg st)
    else if sd.status = "finished" then
      TaskOutcome.returned (sd.output.getD [])
    else if sd.status = "failed" then
      TaskOutcome.raised
        ("Browser-Use task failed: " ++ sd.error.getD "Unknown error")
    else pollLoop rest

/-- Embedding of `JobScraper._run_browser_use_task`
(src/api/scraper.py:152-185): the submission result followed by the trace of
poll results. -/
def run_browser_use_task (submit : CallResult SubmitData)
    (polls : List (CallResult StatusData)) : TaskOutcome :=
  match submit with
  | CallResult.transportError m => TaskOutcome.raised m
  | CallResult.response st _ =>
    if !is2xx st then TaskOutcome.raised (httpErrorMsg st)
    else pollLoop polls

/-- A poll result the loop passes over: a 2xx response whose status is
neither terminal value. -/
def nonTerminalPoll : CallResult StatusData → Bool
  | CallResult.response st sd =>
    is2xx st && !(sd.status == "finished") && !(sd.status == "failed")
  | CallResult.transportError _ => false

/-! ## Webhook signature verification (src/api/webhooks/handlers.py:9-37)

The keyed-hash primitives (`hmac.new(...).hexdigest()`) are external
collaborators, abstracted as digest functions from secret and body bytes to
a hex string.  `hmac.compare_digest` is a constant-time string equality. -/

/-- Python `s.startswith(p)` at the character level. -/
def leadsWith : List Char → List Char → Bool
  | _, [] => true
  | [], _ :: _ => false
  | c :: cs, p :: ps => c == p && leadsWith cs ps

/-- Python `pat in hay` substring membership at the character level. -/
def hasSubstring : List Char → List Char → Bool
  | [], pat => pat.isEmpty
  | c :: rest, pat => leadsWith (c :: rest) pat || hasSubstring rest pat

/-- Embedding of `verify_github_signature`
(src/api/webhooks/handlers.py:9-24); `signature.startswith('sha256=')` and
the slice `signature[7:]` are taken at the character level. -/
def verify_github_signature (hmacSha256Hex : String → List Nat → String)
    (body : List Nat) (signature secret : String) : Bool :=
  if signature = "" || secret = "" then true
  else if !leadsWith signature.toList "sha256=".toList then false
  else hmacSha256Hex secret body == (signature.toList.drop 7).asString

/-- Embedding of `verify_vercel_signature`
(src/api/webhooks/handlers.py:26-37). -/
def verify_vercel_signature (hmacSha1Hex : String → List Nat → String)
    (body : List Nat) (signature secret : String) : Bool :=
  if signature = "" || secret = "" then true
  else signature == hmacSha1Hex secret body

/-! ## Webhook event handling (src/api/webhooks/handlers.py:39-131)

Parsed JSON payloads are modelled by a small JSON type with the `dict.get`
style accessors the handlers use. -/

inductive Json where
  | null
  | str (s : String)
  | num (n : Int)
  | bool (b : Bool)
  | arr (xs : List Json)
  | obj (fields : List (String × Json))

/-- Python `payload.get(key, default)` on a parsed JSON dict; on a non-dict
value it yields the default (the handlers only apply it to dicts). -/
def Json.getD (j : Json) (key : String) (default : Json) : Json :=
  match j with
  | Json.obj fields =>
    match fields.find? (fun kv => kv.1 == key) with
    | some kv => kv.2
    | none => default
  | _ => default

/-- Python `len(...)` of a value the handler expects to be a list. -/
def Json.arrLen (j : Json) : Nat :=
  match j with
  | Json.arr xs => xs.length
  | _ => 0

/-- The string content of a value the handler expects to be a string. -/
def Json.asString (j : Json) : String :=
  match j with
  | Json.str s => s
  | _ => ""

/-- Python truthiness of a JSON value. -/
def Json.truthy (j : Json) : Bool :=
  match j with
  | Json.null => false
  | Json.str s => !(s == "")
  | Json.num n => !(n == 0)
  | Json.bool b => b
  | Json.arr xs => !xs.isEmpty
  | Json.obj fields => !fields.isEmpty

/-- Result dict built by `handle_github_webhook`
(src/api/webhooks/handlers.py:57-77): the generic fields are always present,
the event-specific ones only on the matching branch. -/
structure GithubResult where
  success : Bool
  event_type : String
  delivery_id : String
  commits : Option Nat := none
  ref : Option Json := none
  repository : Option Json := none
  action : Option Json := none
  pr_number : Option Json := none
  pr_title : Option Json := none
  issue_number : Option Json := none
  issue_title : Option Json := none

/-- The event dispatch of `handle_github_webhook`
(src/api/webhooks/handlers.py:57-77), applied to the parsed payload. -/
def githubEventResult (event_type delivery_id : String) (payload : Json) :
    GithubResult :=
  let base : GithubResult :=
    { success := true, event_type := event_type, delivery_id := delivery_id }
  if event_type = "push" then
    { base with
      commits := some (payload.getD "commits" (Json.arr [])).arrLen
      ref := some (payload.getD "ref" (Json.str ""))
      repository :=
        some ((payload.getD "repository" (Json.obj [])).getD "full_name"
          (Json.str "")) }
  else if event_type = "pull_request" then
    let pr := payload.getD "pull_request" (Json.obj [])
    { base with
      action := some (payload.getD "action" (Json.str ""))
      pr_number := some (pr.getD "number" (Json.str ""))
      pr_title := some (pr.getD "title" (Json.str "")) }
  else if event_type = "issues" then
    let issue := payload.getD "issue" (Json.obj [])
    { base with
      action := some (payload.getD "action" (Json.str ""))
      issue_number := some (issue.getD "number" (Json.str ""))
      issue_title := some (issue.getD "title" (Json.str "")) }
  else base

inductive WebhookReply (α : Type) where
  | ok (r : α)
  | error (status : Nat) (detail : String)

/-- Embedding of `handle_github_webhook` (src/api/webhooks/handlers.py:39-81).
`payload?` models `json.loads(body)`: `some` on a well-formed JSON body,
`none` (a raised decode error, whose message is `decodeErrMsg`) otherwise.
Everything in the `try` block — including the `raise HTTPException(401)` on a
failed signature check — is caught by `except Exception` and re-raised as
status 500 wrapping `str(e)`. -/
def handle_github_webhook (hmacSha256Hex : String → List Nat → String)
    (body : List Nat) (signature event_type delivery_id github_secret : String)
    (payload? : Option Json) (decodeErrMsg : String) :
    WebhookReply GithubResult :=
  let tryBlock : Except PyExc GithubResult :=
    if !(github_secret == "")
        && !verify_github_signature hmacSha256Hex body signature github_secret
    then Except.error (PyExc.http ⟨401, "Invalid signature"⟩)
    else
      match payload? with
      | none => Except.error (PyExc.other decodeErrMsg)
      | some payload =>
        Except.ok (githubEventResult event_type delivery_id payload)
  match tryBlock with
  | Except.ok r => WebhookReply.ok r
  | Except.error e => WebhookReply.error 500 e.str

/-- Result dict built by `handle_vercel_webhook`
(src/api/webhooks/handlers.py:96-126). -/
structure VercelResult where
  success : Bool
  event_type : String
  deployment_id : Option Json := none
  deployment_url : Option Json := none
  deployment_state : Option Json := none
  project_name : Option Json := none
  deployment_type : Option Json := none
  creator : Option Json := none
  github_commit : Option Json := none

/-- The event dispatch of `handle_vercel_webhook`
(src/api/webhooks/handlers.py:96-126), applied to the parsed payload: the
deployment fields are populated exactly when the string "deployment" occurs
inside the payload's declared type. -/
def vercelEventResult (payload : Json) : VercelResult :=
  let event_type := (payload.getD "type" (Json.str "")).asString
  let base : VercelResult := { success := true, event_type := event_type }
  if hasSubstring event_type.toList "deployment".toList then
    let data := payload.getD "data" (Json.obj [])
    let deployment := data.getD "deployment" (Json.obj [])
    let project := data.getD "project" (Json.obj [])
    let meta := deployment.getD "meta" (Json.obj [])
    { base with
      deployment_id := some (deployment.getD "id" (Json.str ""))
      deployment_url := some (deployment.getD "url" (Json.str ""))
      deployment_state := some (deployment.getD "state" (Json.str ""))
      project_name := some (project.getD "name" (Json.str ""))
      deployment_type := some (deployment.getD "type" (Json.str ""))
      creator :=
        some ((deployment.getD "creator" (Json.obj [])).getD "username"
          (Json.str ""))
      github_commit :=
        if (meta.getD "githubCommitSha" Json.null).truthy then
          some (Json.obj
            [("sha", meta.getD "githubCommitSha" (Json.str "")),
             ("message", meta.getD "githubCommitMessage" (Json.str "")),
             ("author", meta.getD "githubCommitAuthorName" (Json.str "")),
             ("ref", meta.getD "githubCommitRef" (Json.str "")),
             ("repo", meta.getD "githubRepo" (Json.str ""))])
        else none }
  else base

/-- Embedding of `handle_vercel_webhook`
(src/api/webhooks/handlers.py:83-130), with the same exception discipline as
the GitHub handler. -/
def handle_vercel_webhook (hmacSha1Hex : String → List Nat → String)
    (body : List Nat) (signature vercel_secret : String)
    (payload? : Option Json) (decodeErrMsg : String) :
    WebhookReply VercelResult :=
  let tryBlock : Except PyExc VercelResult :=
    if !(vercel_secret == "")
        && !verify_vercel_signature hmacSha1Hex body signature vercel_secret
    then Except.error (PyExc.http ⟨401, "Invalid signature"⟩)
    else
      match payload? with
      | none => Except.error (PyExc.other decodeErrMsg)
      | some payload => Except.ok (vercelEventResult payload)
  match tryBlock with
  | Except.ok r => WebhookReply.ok r
  | Except.error e => WebhookReply.error 500 e.str

/-- Embedding of the `/webhooks/github` endpoint (src/api/index.py:102-111):
a handler result becomes a 200 JSON reply, a raised `HTTPException` keeps its
status code.  Returns the HTTP status code actually sent. -/
def github_webhook_endpoint_status (hmacSha256Hex : String → List Nat → String)
    (body : List Nat) (signature event_type delivery_id github_secret : String)
    (payload? : Option Json) (decodeErrMsg : String) : Nat :=
  match handle_github_webhook hmacSha256Hex body signature event_type
      delivery_id github_secret payload? decodeErrMsg with
  | WebhookReply.ok _ => 200
  | WebhookReply.error status _ => status

/-- A concrete stand-in digest function, used to evaluate the signature
machinery on explicit inputs (distinct bodies get distinct digests). -/
def demoDigest (secret : String) (body : List Nat) : String :=
  secret ++ "-" ++ String.join (body.map toString)

/-! ## Theorems -/

/-- C1: the specification says a POST /api/scrape received while the scraper
is not configured is answered with HTTP 503 (and 500 only for failures of a
configured workflow).  In the code the `raise HTTPException(503)` sits inside
the `try` block whose `except Exception` clause catches every `Exception` —
`HTTPException` included — so the endpoint actually answers HTTP 500 wrapping
the 503 message, for every request and every would-be scrape outcome. -/
theorem scrape_unconfigured_returns_500 (durationMs : Nat)
    (scrapeOutcome : Except PyExc (Nat × Nat)) :
    scrape_job_portal false durationMs scrapeOutcome =
      EndpointReply.error 500
        "Scraping failed: 503: Scraper not available. Please configure SUPABASE_URL and SUPABASE_SERVICE_ROLE_KEY environment variables." :=
  rfl

/-- C10: with an empty signature header both verification functions return
`true` — the `if not signature or not secret` guard fires first — whatever
the secret (configured or not), the body, and the digest primitive; such a
request therefore passes the signature gate. -/
theorem empty_signature_passes_verification
    (hmacSha256Hex hmacSha1Hex : String → List Nat → String)
    (body : List Nat) (secret : String) :
    verify_github_signature hmacSha256Hex body "" secret = true ∧
    verify_vercel_signature hmacSha1Hex body "" secret = true := by
  constructor <;> simp [verify_github_signature, verify_vercel_signature]

/-- C4: with a configured secret, a stale signature over a different byte
sequence is rejected by `verify_github_signature` and a correctly recomputed
one is accepted — but on rejection the handler's `raise HTTPException(401)`
is caught by its own `except Exception` clause and re-raised as status 500,
so the endpoint answers 500 rather than the claimed 401 (it answers 200 on
the recomputed signature). -/
theorem github_signature_rejection_status :
    verify_github_signature demoDigest [2]
      ("sha256=" ++ demoDigest "k" [1]) "k" = false ∧
    verify_github_signature demoDigest [2]
      ("sha256=" ++ demoDigest "k" [2]) "k" = true ∧
    github_webhook_endpoint_status demoDigest [2]
      ("sha256=" ++ demoDigest "k" [1]) "push" "d" "k"
      (some (Json.obj [])) "err" = 500 ∧
    github_webhook_endpoint_status demoDigest [2]
      ("sha256=" ++ demoDigest "k" [2]) "push" "d" "k"
      (some (Json.obj [])) "err" = 200 := by
  refine ⟨by decide, by decide, by decide, by decide⟩

/-- C7: domain extraction returns the URL's host with scheme and path
stripped on the two reference URLs, and yields the empty string (without
raising) on every URL that has no authority component after scheme
stripping. -/
theorem extract_domain_spec :
    extract_domain "https://jobs.example.com/login".toList =
      Except.ok "jobs.example.com".toList ∧
    extract_domain "http://portal.company.cz/dashboard".toList =
      Except.ok "portal.company.cz".toList ∧
    ∀ url : List Char, startsWithSlashSlash (stripScheme url) = false →
      extract_domain url = Except.ok [] := by
  refine ⟨by rfl, by rfl, ?_⟩
  intro url h
  simp [extract_domain, h]

/-- Witness for C7 at a hostless URL. -/
theorem extract_domain_spec_witness :
    startsWithSlashSlash (stripScheme "not a url".toList) = false ∧
    extract_domain "not a url".toList = Except.ok [] :=
  ⟨by rfl, extract_domain_spec.2.2 "not a url".toList (by rfl)⟩

/-- C5: `existing_hashes(position_id)` returns exactly the non-empty
`phone_sha256` values of the Candidate rows of that position — an element is
returned iff some row of the position carries it as a non-empty hash — and
returns nothing when the position has no rows.  The embedded query is a pure
read of the table (it returns a value and leaves the table untouched). -/
theorem get_existing_phone_hashes_spec (table : List CandidateRow)
    (pid : String) :
    (∀ s, s ∈ get_existing_phone_hashes table pid ↔
      ∃ r ∈ table, r.position_id = pid ∧ r.phone_sha256 = some s ∧ s ≠ "") ∧
    ((∀ r ∈ table, r.position_id ≠ pid) →
      get_existing_phone_hashes table pid = []) := by
  have hmem : ∀ s, s ∈ get_existing_phone_hashes table pid ↔
      ∃ r ∈ table, r.position_id = pid ∧ r.phone_sha256 = some s ∧ s ≠ "" := by
    intro s
    simp only [get_existing_phone_hashes, List.mem_filterMap, List.mem_filter,
      beq_iff_eq]
    constructor
    · rintro ⟨r, ⟨hr, hpid⟩, hbind⟩
      cases hp : r.phone_sha256 with
      | none => rw [hp] at hbind; simp at hbind
      | some t =>
        rw [hp] at hbind
        have hbind' : (if t = "" then none else some t : Option String) =
            some s := hbind
        by_cases ht : t = ""
        · rw [if_pos ht] at hbind'; exact absurd hbind' (by simp)
        · rw [if_neg ht] at hbind'
          have hts : t = s := Option.some.inj hbind'
          exact ⟨r, hr, hpid, by rw [hp, hts], by rw [← hts]; exact ht⟩
    · rintro ⟨r, hr, hpid, hsome, hne⟩
      exact ⟨r, ⟨hr, hpid⟩, by rw [hsome]; simp [Option.bind, hne]⟩
  refine ⟨hmem, ?_⟩
  intro hnone
  rw [List.eq_nil_iff_forall_not_mem]
  intro s hs
  rcases (hmem s).1 hs with ⟨r, hr, hpid, _, _⟩
  exact hnone r hr hpid

/-- Witness for C5: a table whose only row belongs to another position makes
the query come back empty. -/
theorem get_existing_phone_hashes_spec_witness :
    get_existing_phone_hashes [⟨"p2", some "abc"⟩] "p1" = [] :=
  (get_existing_phone_hashes_spec [⟨"p2", some "abc"⟩] "p1").2 (by decide)

/-- C9: an event type outside the known set leaves both handlers on their
generic branch: the GitHub dispatch returns only the success flag, event type
and delivery id, the Vercel dispatch (for a type not containing
"deployment") only the success flag and event type; both dispatches are
total functions of the parsed payload, so nothing is raised. -/
theorem unknown_event_generic_ack (event_type delivery_id : String)
    (payload payloadV : Json)
    (hg : event_type ∉ (["push", "pull_request", "issues"] : List String))
    (hv : hasSubstring ((payloadV.getD "type" (Json.str "")).asString).toList
      "deployment".toList = false) :
    githubEventResult event_type delivery_id payload =
      { success := true, event_type := event_type,
        delivery_id := delivery_id } ∧
    vercelEventResult payloadV =
      { success := true,
        event_type := (payloadV.getD "type" (Json.str "")).asString } := by
  constructor
  · have h1 : ¬ event_type = "push" := fun h => hg (by simp [h])
    have h2 : ¬ event_type = "pull_request" := fun h => hg (by simp [h])
    have h3 : ¬ event_type = "issues" := fun h => hg (by simp [h])
    simp [githubEventResult, h1, h2, h3]
  · simp only [vercelEventResult]
    rw [hv]
    simp

/-- Witness for C9 at the unknown GitHub event "release" and the
non-deployment Vercel event "alias.created". -/
theorem unknown_event_generic_ack_witness :
    ("release" ∉ (["push", "pull_request", "issues"] : List String)) ∧
    githubEventResult "release" "d-1" (Json.obj []) =
      { success := true, event_type := "release", delivery_id := "d-1" } ∧
    vercelEventResult (Json.obj [("type", Json.str "alias.created")]) =
      { success := true, event_type := "alias.created" } := by
  have h := unknown_event_generic_ack "release" "d-1" (Json.obj [])
    (Json.obj [("type", Json.str "alias.created")]) (by decide) (by rfl)
  exact ⟨by decide, h.1, h.2⟩

/-- C2: the writer walks the raw candidate list once in input order; its
outcome trace has one entry per input record, `inserted` counts exactly the
successful attempts, `skipped` exactly the failed ones (whatever the failure),
and `inserted + skipped` is the length of the input — for every datastore
behaviour and every starting state. -/
theorem store_candidates_counts {σ : Type} (ds : Datastore σ) (pid : String)
    (cands : List RawCandidate) (src : String) (s : σ) :
    (storeOutcomes ds pid cands src s).length = cands.length ∧
    (store_candidates ds pid cands src s).2.1 =
      (storeOutcomes ds pid cands src s).count true ∧
    (store_candidates ds pid cands src s).2.2 =
      (storeOutcomes ds pid cands src s).count false ∧
    (store_candidates ds pid cands src s).2.1 +
      (store_candidates ds pid cands src s).2.2 = cands.length := by
  induction cands generalizing s with
  | nil => simp [store_candidates, storeOutcomes]
  | cons c rest ih =>
    obtain ⟨ih1, ih2, ih3, ih4⟩ :=
      ih (ds.insert s (candidateRecordOf pid c src)).1
    cases hb : (ds.insert s (candidateRecordOf pid c src)).2 <;>
      · simp [store_candidates, storeOutcomes, hb, List.count_cons,
          ih1, ih2, ih3]
        omega

theorem splitCommaAux_no_comma (x : List Char) (hx : ',' ∉ x)
    (acc : List Char) : splitCommaAux x acc = [acc.reverse ++ x] := by
  induction x generalizing acc with
  | nil => simp [splitCommaAux]
  | cons c cs ih =>
    have hc : ¬ c = ',' := fun h => hx (by simp [h])
    have hcs : ',' ∉ cs := fun h => hx (List.mem_cons_of_mem _ h)
    simp [splitCommaAux, hc, ih hcs]

theorem splitCommaAux_comma_split (x t : List Char) (hx : ',' ∉ x)
    (acc : List Char) :
    splitCommaAux (x ++ ',' :: t) acc = (acc.reverse ++ x) :: splitComma t := by
  induction x generalizing acc with
  | nil => simp [splitCommaAux, splitComma]
  | cons c cs ih =>
    have hc : ¬ c = ',' := fun h => hx (by simp [h])
    have hcs : ',' ∉ cs := fun h => hx (List.mem_cons_of_mem _ h)
    simp [splitCommaAux, hc, ih hcs]

theorem splitComma_joinComma (hashes : List (List Char)) (hne : hashes ≠ [])
    (hwf : ∀ x ∈ hashes, ',' ∉ x) :
    splitComma (joinComma hashes) = hashes := by
  induction hashes with
  | nil => cases hne rfl
  | cons x xs ih =>
    cases xs with
    | nil =>
      simpa [joinComma, splitComma] using
        splitCommaAux_no_comma x (hwf x (by simp)) []
    | cons y ys =>
      have hx : ',' ∉ x := hwf x (by simp)
      have step :=
        splitCommaAux_comma_split x (joinComma (y :: ys)) hx []
      rw [joinComma, splitComma, step]
      simp only [List.reverse_nil, List.nil_append]
      rw [ih (by simp) (fun z hz => hwf z (by simp [hz]))]

theorem joinComma_ne_nil (x : List Char) (xs : List (List Char))
    (hxne : x ≠ []) : joinComma (x :: xs) ≠ [] := by
  cases xs with
  | nil => simpa [joinComma] using hxne
  | cons y ys => simp [joinComma]

/-- C6: for every collection of well-formed phone hashes (non-empty,
comma-free strings, as hex digests are), the comma-separated components of
the Task Builder's serialized skip-list are exactly the input hashes — each
hash appears, nothing else does, and membership is preserved both ways. -/
theorem skip_list_components (hashes : List (List Char))
    (hwf : ∀ x ∈ hashes, x ≠ [] ∧ ',' ∉ x) :
    csvComponents (skipHashesCsv hashes) = hashes ∧
    ∀ x, x ∈ csvComponents (skipHashesCsv hashes) ↔ x ∈ hashes := by
  have heq : csvComponents (skipHashesCsv hashes) = hashes := by
    cases hashes with
    | nil => simp [csvComponents, skipHashesCsv, joinComma]
    | cons x xs =>
      have hne := joinComma_ne_nil x xs (hwf x (by simp)).1
      rw [csvComponents, skipHashesCsv, if_neg hne]
      exact splitComma_joinComma (x :: xs) (by simp)
        (fun z hz => (hwf z hz).2)
  exact ⟨heq, fun z => by rw [heq]⟩

/-- Witness for C6 at the reference skip-list {"abc123", "def456"}. -/
theorem skip_list_components_witness :
    (∀ x ∈ (["abc123".toList, "def456".toList] : List (List Char)),
      x ≠ [] ∧ ',' ∉ x) ∧
    csvComponents (skipHashesCsv ["abc123".toList, "def456".toList]) =
      ["abc123".toList, "def456".toList] :=
  ⟨by decide, (skip_list_components ["abc123".toList, "def456".toList]
    (by decide)).1⟩

theorem pollLoop_skips (pre l : List (CallResult StatusData))
    (hp : ∀ p ∈ pre, nonTerminalPoll p = true) :
    pollLoop (pre ++ l) = pollLoop l := by
  induction pre with
  | nil => rfl
  | cons p ps ih =>
    have hp0 := hp p (by simp)
    cases p with
    | transportError m => simp [nonTerminalPoll] at hp0
    | response st sd =>
      simp only [nonTerminalPoll, Bool.and_eq_true, Bool.not_eq_true',
        beq_eq_false_iff_ne] at hp0
      obtain ⟨⟨h2xx, hfin⟩, hfail⟩ := hp0
      rw [List.cons_append, pollLoop]
      simp only [h2xx, Bool.not_true, Bool.false_eq_true, if_false, hfin,
        hfail, if_neg]
      exact ih fun q hq => hp q (by simp [hq])

/-- C8: the automation client raises exactly on a transport error or non-2xx
response at submission, a transport error or non-2xx response at some poll,
or a terminal "failed" status — whose provider-supplied error message is
embedded verbatim in the raised message — while a terminal "finished" status
returns the provider's output array (possibly empty, defaulted when absent)
as-is; a trace that never reaches any of these keeps polling, so nothing
else raises or returns. -/
theorem run_browser_use_task_spec (st : Nat) (b : SubmitData)
    (pre rest polls : List (CallResult StatusData)) (m : String)
    (h2 : is2xx st = true) (hpre : ∀ p ∈ pre, nonTerminalPoll p = true) :
    (run_browser_use_task (CallResult.transportError m) polls =
      TaskOutcome.raised m) ∧
    (∀ st2, is2xx st2 = false →
      run_browser_use_task (CallResult.response st2 b) polls =
        TaskOutcome.raised (httpErrorMsg st2)) ∧
    (run_browser_use_task (CallResult.response st b)
        (pre ++ CallResult.transportError m :: rest) =
      TaskOutcome.raised m) ∧
    (∀ st2 sd2, is2xx st2 = false →
      run_browser_use_task (CallResult.response st b)
          (pre ++ CallResult.response st2 sd2 :: rest) =
        TaskOutcome.raised (httpErrorMsg st2)) ∧
    (∀ st2 (sd2 : StatusData), is2xx st2 = true → sd2.status = "failed" →
      run_browser_use_task (CallResult.response st b)
          (pre ++ CallResult.response st2 sd2 :: rest) =
        TaskOutcome.raised
          ("Browser-Use task failed: " ++ sd2.error.getD "Unknown error")) ∧
    (∀ st2 (sd2 : StatusData), is2xx st2 = true → sd2.status = "finished" →
      run_browser_use_task (CallResult.response st b)
          (pre ++ CallResult.response st2 sd2 :: rest) =
        TaskOutcome.returned (sd2.output.getD [])) ∧
    (∀ ps : List (CallResult StatusData),
      (∀ p ∈ ps, nonTerminalPoll p = true) →
      run_browser_use_task (CallResult.response st b) ps =
        TaskOutcome.stillPolling) := by
  refine ⟨rfl, ?_, ?_, ?_, ?_, ?_, ?_⟩
  · intro st2 hst2
    simp [run_browser_use_task, hst2]
  · rw [run_browser_use_task]
    simp only [h2, Bool.not_true, Bool.false_eq_true, if_false]
    rw [pollLoop_skips pre _ hpre, pollLoop]
  · intro st2 sd2 hst2
    rw [run_browser_use_task]
    simp only [h2, Bool.not_true, Bool.false_eq_true, if_false]
    rw [pollLoop_skips pre _ hpre, pollLoop]
    simp [hst2]
  · intro st2 sd2 hst2 hfail
    rw [run_browser_use_task]
    simp only [h2, Bool.not_true, Bool.false_eq_true, if_false]
    rw [pollLoop_skips pre _ hpre, pollLoop]
    simp [hst2, hfail]
  · intro st2 sd2 hst2 hfin
    rw [run_browser_use_task]
    simp only [h2, Bool.not_true, Bool.false_eq_true, if_false]
    rw [pollLoop_skips pre _ hpre, pollLoop]
    simp [hst2, hfin]
  · intro ps hps
    rw [run_browser_use_task]
    simp only [h2, Bool.not_true, Bool.false_eq_true, if_false]
    have := pollLoop_skips ps [] hps
    simpa using this

/-- Witness for C8: a pending poll followed by a "failed" status raises with
the provider's message "boom" embedded verbatim, and followed by a
"finished" status returns the (empty) output. -/
theorem run_browser_use_task_spec_witness :
    is2xx 200 = true ∧
    (∀ p ∈ ([CallResult.response 200
        (⟨"running", none, none⟩ : StatusData)] :
        List (CallResult StatusData)), nonTerminalPoll p = true) ∧
    run_browser_use_task (CallResult.response 200 ⟨"t1"⟩)
        [CallResult.response 200 ⟨"running", none, none⟩,
         CallResult.response 200 ⟨"failed", none, some "boom"⟩] =
      TaskOutcome.raised "Browser-Use task failed: boom" ∧
    run_browser_use_task (CallResult.response 200 ⟨"t1"⟩)
        [CallResult.response 200 ⟨"running", none, none⟩,
         CallResult.response 200 ⟨"finished", some [], none⟩] =
      TaskOutcome.returned [] := by
  have h := run_browser_use_task_spec 200 ⟨"t1"⟩
    [CallResult.response 200 ⟨"running", none, none⟩] [] [] "m"
    (by decide) (by decide)
  refine ⟨by decide, by decide, ?_, ?_⟩
  · exact h.2.2.2.2.1 200 ⟨"failed", none, some "boom"⟩ (by decide) rfl
  · exact h.2.2.2.2.2.1 200 ⟨"finished", some [], none⟩ (by decide) rfl

theorem store_candidates_state_mono (h : String → String) (pid src : String)
    (cands : List RawCandidate) :
    ∀ (s : List (String × String)) (k : String × String), k ∈ s →
      k ∈ (store_candidates (uniqueDS h) pid cands src s).1 := by
  induction cands with
  | nil => intro s k hk; simpa [store_candidates] using hk
  | cons c rest ih =>
    intro s k hk
    have hstep : k ∈ ((uniqueDS h).insert s (candidateRecordOf pid c src)).1 := by
      show k ∈ (uniqueInsert h s (candidateRecordOf pid c src)).1
      rw [uniqueInsert]
      cases hc : (candidateRecordOf pid c src).phone with
      | none => simpa using hk
      | some p =>
        by_cases hm : ((candidateRecordOf pid c src).position_id, h p) ∈ s
        · simpa [hm] using hk
        · simp only [hm, if_neg, not_false_iff]
          exact List.mem_cons_of_mem _ hk
    simp only [store_candidates]
    cases hb : ((uniqueDS h).insert s (candidateRecordOf pid c src)).2 <;>
      simp only [hb, Bool.false_eq_true, if_false, if_true] <;>
      exact ih _ _ hstep

theorem store_fresh (h : String → String) (pid src : String)
    (cands : List RawCandidate) :
    ∀ (s : List (String × String)),
    (∀ c ∈ cands, c.phone.isSome = true) →
    (cands.map RawCandidate.phone).Nodup →
    Function.Injective h →
    (∀ c ∈ cands, ∀ k, keyOf h pid c = some k → k ∉ s) →
    (store_candidates (uniqueDS h) pid cands src s).2.1 = cands.length ∧
    (store_candidates (uniqueDS h) pid cands src s).2.2 = 0 ∧
    (∀ c ∈ cands, ∀ k, keyOf h pid c = some k →
      k ∈ (store_candidates (uniqueDS h) pid cands src s).1) := by
  induction cands with
  | nil =>
    intro s _ _ _ _
    refine ⟨rfl, rfl, ?_⟩
    intro c hc
    exact absurd hc (List.not_mem_nil c)
  | cons c rest ih =>
    intro s hsome hnodup hinj hfresh
    obtain ⟨p, hp⟩ := Option.isSome_iff_exists.mp (hsome c (by simp))
    have hkey : keyOf h pid c = some (pid, h p) := by simp [keyOf, hp]
    have hknotin : (pid, h p) ∉ s := hfresh c (by simp) _ hkey
    have hstep : (uniqueDS h).insert s (candidateRecordOf pid c src) =
        ((pid, h p) :: s, true) := by
      show uniqueInsert h s (candidateRecordOf pid c src) = _
      rw [uniqueInsert]
      have hrp : (candidateRecordOf pid c src).phone = some p := hp
      rw [hrp]
      simpa [candidateRecordOf] using hknotin
    have hnotmem : c.phone ∉ rest.map RawCandidate.phone :=
      (List.nodup_cons.mp hnodup).1
    have hnodup' : (rest.map RawCandidate.phone).Nodup :=
      (List.nodup_cons.mp hnodup).2
    have hrest_fresh : ∀ c2 ∈ rest, ∀ k, keyOf h pid c2 = some k →
        k ∉ ((pid, h p) :: s) := by
      intro c2 hc2 k hk2 hmem
      obtain ⟨p2, hp2⟩ := Option.isSome_iff_exists.mp (hsome c2 (by simp [hc2]))
      have hk2' : k = (pid, h p2) := by
        rw [keyOf, hp2] at hk2
        exact (Option.some.inj hk2).symm
      rcases List.mem_cons.mp hmem with heq | hmem'
      · have hpp : p2 = p := hinj (congrArg Prod.snd (hk2' ▸ heq))
        apply hnotmem
        rw [hp, ← hpp, ← hp2]
        exact List.mem_map_of_mem _ hc2
      · exact hfresh c2 (by simp [hc2]) k hk2 hmem'
    obtain ⟨ihi, ihs, ihmem⟩ := ih ((pid, h p) :: s)
      (fun c2 hc2 => hsome c2 (by simp [hc2])) hnodup' hinj hrest_fresh
    refine ⟨?_, ?_, ?_⟩
    · simp only [store_candidates, hstep]
      simp [ihi]
    · simp only [store_candidates, hstep]
      simp [ihs]
    · intro c2 hc2 k hk2
      rcases List.mem_cons.mp hc2 with rfl | hc2'
      · have hk2' : k = (pid, h p) := by
          rw [hkey] at hk2
          exact (Option.some.inj hk2).symm
        subst hk2'
        simp only [store_candidates, hstep]
        simp only [if_true]
        exact store_candidates_state_mono h pid src rest _ _ (by simp)
      · simp only [store_candidates, hstep]
        simp only [if_true]
        exact ihmem c2 hc2' k hk2

theorem store_stale (h : String → String) (pid src : String)
    (cands : List RawCandidate) :
    ∀ (s : List (String × String)),
    (∀ c ∈ cands, ∃ k, keyOf h pid c = some k ∧ k ∈ s) →
    store_candidates (uniqueDS h) pid cands src s = (s, 0, cands.length) := by
  induction cands with
  | nil => intro s _; simp [store_candidates]
  | cons c rest ih =>
    intro s hin
    obtain ⟨k, hk, hks⟩ := hin c (by simp)
    obtain ⟨p, hp, hkp⟩ : ∃ p, c.phone = some p ∧ k = (pid, h p) := by
      rw [keyOf] at hk
      cases hc : c.phone with
      | none => rw [hc] at hk; simp at hk
      | some p =>
        rw [hc] at hk
        exact ⟨p, rfl, (Option.some.inj hk).symm⟩
    have hstep : (uniqueDS h).insert s (candidateRecordOf pid c src) =
        (s, false) := by
      show uniqueInsert h s (candidateRecordOf pid c src) = _
      rw [uniqueInsert]
      have hrp : (candidateRecordOf pid c src).phone = some p := hp
      rw [hrp]
      have hmem : ((candidateRecordOf pid c src).position_id, h p) ∈ s := by
        simpa [candidateRecordOf, ← hkp] using hks
      simp [hmem]
    have ihr := ih s (fun c2 hc2 => hin c2 (by simp [hc2]))
    simp only [store_candidates, hstep]
    simp [ihr]

/-- C3: against the datastore enforcing the (position_id, phone_hash)
uniqueness constraint, storing N candidate records whose phones are present,
pairwise distinct and collision-free under the digest, into a store holding
none of their keys, inserts all N and skips none; repeating the identical
call on the resulting store inserts none and skips all N. -/
theorem store_idempotent (h : String → String) (pid src : String)
    (cands : List RawCandidate) (s0 : List (String × String))
    (hsome : ∀ c ∈ cands, c.phone.isSome = true)
    (hnodup : (cands.map RawCandidate.phone).Nodup)
    (hinj : Function.Injective h)
    (hfresh : ∀ c ∈ cands, ∀ k, keyOf h pid c = some k → k ∉ s0) :
    (store_candidates (uniqueDS h) pid cands src s0).2.1 = cands.length ∧
    (store_candidates (uniqueDS h) pid cands src s0).2.2 = 0 ∧
    (store_candidates (uniqueDS h) pid cands src
      (store_candidates (uniqueDS h) pid cands src s0).1).2.1 = 0 ∧
    (store_candidates (uniqueDS h) pid cands src
      (store_candidates (uniqueDS h) pid cands src s0).1).2.2 =
        cands.length := by
  obtain ⟨h1, h2, hmem⟩ :=
    store_fresh h pid src cands s0 hsome hnodup hinj hfresh
  have hstale := store_stale h pid src cands
    (store_candidates (uniqueDS h) pid cands src s0).1
    (fun c hc => by
      obtain ⟨p, hp⟩ := Option.isSome_iff_exists.mp (hsome c hc)
      exact ⟨(pid, h p), by simp [keyOf, hp],
        hmem c hc _ (by simp [keyOf, hp])⟩)
  exact ⟨h1, h2, by rw [hstale], by rw [hstale]⟩

/-- Witness for C3: two candidates with distinct phones "111" and "222" into
an empty store — first pass inserts 2 and skips 0, second pass inserts 0 and
skips 2. -/
theorem store_idempotent_witness :
    (store_candidates (uniqueDS id) "p1"
      [{ phone := some "111" }, { phone := some "222" }] "u" []).2.1 = 2 ∧
    (store_candidates (uniqueDS id) "p1"
      [{ phone := some "111" }, { phone := some "222" }] "u" []).2.2 = 0 ∧
    (store_candidates (uniqueDS id) "p1"
      [{ phone := some "111" }, { phone := some "222" }] "u"
      (store_candidates (uniqueDS id) "p1"
        [{ phone := some "111" }, { phone := some "222" }] "u" []).1).2.1 =
      0 ∧
    (store_candidates (uniqueDS id) "p1"
      [{ phone := some "111" }, { phone := some "222" }] "u"
      (store_candidates (uniqueDS id) "p1"
        [{ phone := some "111" }, { phone := some "222" }] "u" []).1).2.2 =
      2 := by
  have h := store_idempotent id "p1" "u"
    [{ phone := some "111" }, { phone := some "222" }] []
    (by decide) (by decide) (fun a b hab => hab)
    (fun c hc k hk => List.not_mem_nil k)
  simpa using h
